import Mathlib

/-
Formal model of the lockstep networking core of repl-net-rs.

The definitions below are a shallow embedding of src/main.rs (the
self-contained binary that holds the server arbiter, the wire codec and
the client predictor), together with the tick-rate constant of the
modular src/sim.rs.  Machine integers (u32, u8) are modelled as Nat
with explicit wrap-around (mod 2^32) where the source wraps; saturating
operations are modelled explicitly; the f32 quantities the claims
mention (the sim-rate literals, the fixed time step) are modelled as
Rat carrying the same decimal literals.  HashMap<u32, u8> is modelled
as an association list observed through lookup, insert-if-absent and
remove, matching the entry/or_insert/remove API calls the source makes.
-/

-- Constants from src/main.rs (lines 17-36).
def U32M : Nat := 4294967296

def TPS : Nat := 50

def DT : Rat := 1 / (TPS : Rat)

def PLAYER_COUNT : Nat := 2

def LEAD_TICKS : Nat := 4

def D_MAX : Nat := 32

def HISTORY : Nat := 2048

def CATCHUP_BUDGET_TICKS : Nat := 2000

-- src/sim.rs line 8 declares its own tick rate, distinct from main.rs.
namespace Sim

def TPS : Nat := 60

end Sim

-- u32::saturating_add
def satAdd32 (a b : Nat) : Nat := min (a + b) (U32M - 1)

-- Wall tick of main.rs lines 414-415: floor(elapsed_secs * TPS), with the
-- elapsed time given in whole milliseconds.
def wallTickMs (elapsedMs : Nat) : Nat := elapsedMs * TPS / 1000

-- Message tags, src/main.rs lines 177-179.
def TAG_ASSIGN_START : Nat := 1

def TAG_INPUT : Nat := 2

def TAG_TICK_INPUTS : Nat := 3

-- Message structs, src/main.rs lines 181-198.  Input bits are a raw byte
-- (field `bits`); the TickInputs pair [InputBits; 2] is held as the two
-- fields i0 and i1.
structure AssignStart where
  player_id : Nat
  start_after_ms : Nat
deriving DecidableEq, Repr

structure InputMsg where
  player_id : Nat
  tick : Nat
  bits : Nat
deriving DecidableEq, Repr

structure TickInputsMsg where
  tick : Nat
  i0 : Nat
  i1 : Nat
deriving DecidableEq, Repr

-- Events a client's reader can yield, src/main.rs lines 272-275.  There is
-- deliberately no Input variant.
inductive NetEvent where
  | assignStart : AssignStart → NetEvent
  | tickInputs : TickInputsMsg → NetEvent
deriving DecidableEq, Repr

inductive DecodeErr where
  | truncated : DecodeErr
  | invalidData : Nat → DecodeErr
deriving DecidableEq, Repr

-- Little-endian u32, src/main.rs lines 200-208.
def u32le (v : Nat) : List Nat :=
  [v % 256, v / 256 % 256, v / 65536 % 256, v / 16777216 % 256]

def readU32 : List Nat → Option (Nat × List Nat)
  | b0 :: b1 :: b2 :: b3 :: rest =>
      some (b0 + 256 * b1 + 65536 * b2 + 16777216 * b3, rest)
  | _ => none

-- Encoders, src/main.rs lines 210-228.
def encodeAssignStart (m : AssignStart) : List Nat :=
  TAG_ASSIGN_START :: m.player_id :: u32le m.start_after_ms

def encodeInput (m : InputMsg) : List Nat :=
  TAG_INPUT :: m.player_id :: (u32le m.tick ++ [m.bits])

def encodeTickInputs (m : TickInputsMsg) : List Nat :=
  TAG_TICK_INPUTS :: (u32le m.tick ++ [m.i0, m.i1])

-- Payload decoders for each tag, mirroring the match arms of recv_msg,
-- src/main.rs lines 238-269.  A short read inside a frame is the
-- UnexpectedEof error that read_exact raises mid-frame (Truncated).
def decodeAssignStartPayload : List Nat → Except DecodeErr (Option NetEvent × List Nat)
  | pid :: r2 =>
      match readU32 r2 with
      | some (sams, r3) => .ok (some (.assignStart ⟨pid, sams⟩), r3)
      | none => .error .truncated
  | [] => .error .truncated

def decodeTickInputsPayload (rest : List Nat) : Except DecodeErr (Option NetEvent × List Nat) :=
  match readU32 rest with
  | some (tick, r2) =>
      match r2 with
      | b0 :: b1 :: r3 => .ok (some (.tickInputs ⟨tick, b0, b1⟩), r3)
      | _ => .error .truncated
  | none => .error .truncated

def decodeInputPayload : List Nat → Except DecodeErr (Option NetEvent × List Nat)
  | _pid :: r2 =>
      match readU32 r2 with
      | some (_tick, r3) =>
          match r3 with
          | _b :: r4 => .ok (none, r4)
          | [] => .error .truncated
      | none => .error .truncated
  | [] => .error .truncated

-- recv_msg, src/main.rs lines 230-270.  A clean EOF before the tag byte is
-- Ok(None); an unknown tag is the InvalidData error.
def recvMsg : List Nat → Except DecodeErr (Option NetEvent × List Nat)
  | [] => .ok (none, [])
  | tag :: rest =>
      if tag = TAG_ASSIGN_START then decodeAssignStartPayload rest
      else if tag = TAG_TICK_INPUTS then decodeTickInputsPayload rest
      else if tag = TAG_INPUT then decodeInputPayload rest
      else .error (.invalidData tag)

-- Deterministic simulation, src/main.rs lines 80-171.  Positions and
-- velocities are f32 in the source; they are modelled as Rat with the same
-- decimal literals (the claims settled here never depend on f32 rounding,
-- only on which inputs are fed to the step function).
structure Player where
  x : Rat
  y : Rat
  vx : Rat
  vy : Rat
deriving DecidableEq, Repr

structure SimState where
  p0 : Player
  p1 : Player
deriving DecidableEq, Repr

def SimState.new : SimState :=
  ⟨⟨20, 20, 0, 0⟩, ⟨100, 20, 0, 0⟩⟩

-- InputBits flag accessors, src/main.rs lines 48-78: bit 0 LEFT, bit 1
-- RIGHT, bit 2 JUMP.
def bitsLeft (b : Nat) : Bool := b.testBit 0

def bitsRight (b : Nat) : Bool := b.testBit 1

def bitsJump (b : Nat) : Bool := b.testBit 2

-- Body of the per-player loop of step, src/main.rs lines 124-170.
def stepPlayer (p : Player) (input : Nat) : Player :=
  let dx : Int := (if bitsLeft input then -1 else 0) + (if bitsRight input then 1 else 0)
  let vx : Rat := (dx : Rat) * 90
  let onGround : Bool := decide (p.y + 32 ≥ 140)
  let vyJump : Rat := if bitsJump input ∧ onGround then -220 else p.vy
  let vy1 : Rat := vyJump + 600 * DT
  let x1 : Rat := p.x + vx * DT
  let y1 : Rat := p.y + vy1 * DT
  let x2 : Rat := if x1 < 0 then 0 else x1
  let x3 : Rat := if x2 > 240 - 32 then 240 - 32 else x2
  let yv2 : Rat × Rat := if y1 < 0 then (0, if vy1 < 0 then 0 else vy1) else (y1, vy1)
  let yv3 : Rat × Rat :=
    if yv2.1 > 140 - 32 then ((140 : Rat) - 32, if yv2.2 > 0 then 0 else yv2.2)
    else yv2
  ⟨x3, yv3.1, vx, yv3.2⟩

def step (s : SimState) (i0 i1 : Nat) : SimState :=
  ⟨stepPlayer s.p0 i0, stepPlayer s.p1 i1⟩

-- Association-list view of HashMap<u32, u8> / of the Vec<Option<_>> ring
-- buffers, observed through the exact operations the source uses.
def ringGet {A : Type} (r : List (Nat × A)) (k : Nat) : Option A :=
  (r.find? (fun kv => kv.1 == k)).map (fun kv => kv.2)

def ringSet {A : Type} (r : List (Nat × A)) (k : Nat) (v : A) : List (Nat × A) :=
  (k, v) :: r.filter (fun kv => kv.1 != k)

-- HashMap::entry(k).or_insert(v): insert only when the key is absent.
def orInsert (r : List (Nat × Nat)) (k v : Nat) : List (Nat × Nat) :=
  if (ringGet r k).isSome then r else (k, v) :: r

-- HashMap::remove(k).
def removeKey (r : List (Nat × Nat)) (k : Nat) : List (Nat × Nat) :=
  r.filter (fun kv => kv.1 != k)

-- Server arbiter state, src/main.rs lines 395-405: the tick counter, the
-- two pending maps, the last-known bits and the telemetry sim state.
structure ServerSt where
  tick : Nat
  pending0 : List (Nat × Nat)
  pending1 : List (Nat × Nat)
  last0 : Nat
  last1 : Nat
  state : SimState
deriving DecidableEq, Repr

def initServer : ServerSt :=
  ⟨0, [], [], 0, 0, SimState.new⟩

def pendingOf (s : ServerSt) (pid : Nat) : List (Nat × Nat) :=
  if pid = 0 then s.pending0 else s.pending1

def lastOf (s : ServerSt) (pid : Nat) : Nat :=
  if pid = 0 then s.last0 else s.last1

-- Body of the ingest drain loop, src/main.rs lines 419-433: bound-check the
-- player id, drop stale ticks, drop ticks beyond the saturating future
-- window, then insert only if the (player, tick) slot is still empty.
def ingest (s : ServerSt) (m : InputMsg) : ServerSt :=
  if PLAYER_COUNT ≤ m.player_id then s
  else if m.tick < s.tick then s
  else if satAdd32 s.tick D_MAX < m.tick then s
  else if m.player_id = 0 then { s with pending0 := orInsert s.pending0 m.tick m.bits }
  else { s with pending1 := orInsert s.pending1 m.tick m.bits }

-- Body of the advance loop, src/main.rs lines 435-455: start from `last`,
-- overwrite from pending (removing the entry and refreshing `last`),
-- broadcast, step the telemetry state, wrap-increment the tick.
def advanceTick (s : ServerSt) : ServerSt × TickInputsMsg :=
  let b0 : Nat := match ringGet s.pending0 s.tick with | some b => b | none => s.last0
  let b1 : Nat := match ringGet s.pending1 s.tick with | some b => b | none => s.last1
  let msg : TickInputsMsg := ⟨s.tick, b0, b1⟩
  (⟨(s.tick + 1) % U32M,
    removeKey s.pending0 s.tick,
    removeKey s.pending1 s.tick,
    b0, b1,
    step s.state b0 b1⟩, msg)

-- What a client put on the wire in an Input frame (tag 2): the frame
-- carries a player_id byte, a tick and the bits.
structure WireInput where
  player_id : Nat
  tick : Nat
  bits : Nat
deriving DecidableEq, Repr

-- The per-connection reader thread, src/main.rs lines 340-369: it parses
-- the wire frame and forwards a record whose player_id is the id assigned
-- at accept time; the wire player_id byte is read and discarded.
def readerRecord (assignedId : Nat) (w : WireInput) : InputMsg :=
  ⟨assignedId, w.tick, w.bits⟩

-- One observable step of the server loop: either a wire input arrives on
-- the connection with the given assigned id and is ingested, or the server
-- advances one tick and broadcasts.
inductive SEvent where
  | recv : Nat → WireInput → SEvent
  | advanceEv : SEvent
deriving DecidableEq, Repr

def serverStepEv : ServerSt × List TickInputsMsg → SEvent → ServerSt × List TickInputsMsg
  | (s, tr), .recv a w => (ingest s (readerRecord a w), tr)
  | (s, tr), .advanceEv =>
      let p := advanceTick s
      (p.1, tr ++ [p.2])

def serverRun (evs : List SEvent) : ServerSt × List TickInputsMsg :=
  evs.foldl serverStepEv (initServer, [])

-- An outbound SendInput command, src/main.rs lines 277-280.
structure OutCmd where
  tick : Nat
  bits : Nat
deriving DecidableEq, Repr

-- Client predictor state, src/main.rs lines 582-601: the id assigned by
-- the server, the local tick, the last-known remote bits, the scheduled
-- rollback, the sim state and its render copy, the accumulator, and the
-- three HISTORY-sized rings (auth_inputs, used_inputs, state_history),
-- each slot tagged with the tick it holds.  The rings are keyed by the
-- slot index tick % HISTORY, exactly as the Vec<Option<_>> buffers are.
structure ClientSt where
  myId : Nat
  localTick : Nat
  lastRemote0 : Nat
  lastRemote1 : Nat
  pendingRollback : Option Nat
  state : SimState
  renderPrevState : SimState
  accumulator : Rat
  authInputs : List (Nat × (Nat × Nat × Nat))
  usedInputs : List (Nat × (Nat × Nat × Nat))
  stateHistory : List (Nat × (Nat × SimState))
deriving DecidableEq, Repr

-- The rollback application block, src/main.rs lines 766-777: only when the
-- saved snapshot in slot t_rb % HISTORY is tagged exactly t_rb is the state
-- restored, local_tick rewound and the pending rollback cleared; in every
-- other case the whole block leaves the client state untouched (in
-- particular pending_rollback keeps its value).
def applyRollback (c : ClientSt) : ClientSt :=
  match c.pendingRollback with
  | none => c
  | some trb =>
      match ringGet c.stateHistory (trb % HISTORY) with
      | none => c
      | some (tSaved, saved) =>
          if tSaved = trb then
            { c with state := saved, renderPrevState := saved,
                     localTick := trb, pendingRollback := none }
          else c

-- The pacing controller, src/main.rs lines 801-810: expected server tick
-- is the saturating difference of the local-time tick and LEAD_TICKS,
-- ahead is computed as a signed (i64) value, and the f32 literals 1.03 /
-- 0.98 / 1.0 are carried as the same decimal literals over Rat.
def simRate (localTick timeTick : Nat) : Rat :=
  let expectedServerTick : Nat := timeTick - LEAD_TICKS
  let ahead : Int := (localTick : Int) - (expectedServerTick : Int)
  if ahead < (LEAD_TICKS : Int) - 1 then 103 / 100
  else if ahead > (LEAD_TICKS : Int) + 2 then 98 / 100
  else 1

-- Accumulator advance, src/main.rs line 811.
def advanceAcc (acc frameTime : Rat) (localTick timeTick : Nat) : Rat :=
  acc + frameTime * simRate localTick timeTick

-- One pass of the catch-up simulation loop body, src/main.rs lines
-- 820-887, run while simulating tick c.localTick: bump the accumulator to
-- DT when a catch-up step is forced, snapshot the pre-tick state, choose
-- authoritative inputs when the auth slot is tagged with this very tick
-- and predicted inputs otherwise (keyboard for self, last_remote for the
-- other player), record them in used_inputs, schedule the outbound
-- SendInput carrying tick = local_tick and bits = inputs[my_id], step the
-- simulation, and wrap-increment local_tick.  (The malicious-mode local
-- tamper and the delay-queue scheduling instants are outside the claims
-- settled on this body.)
def clientSimTick (keyboard : Nat) (c : ClientSt) : ClientSt × OutCmd :=
  let acc0 : Rat := if c.accumulator < DT then DT else c.accumulator
  let prev : SimState := c.state
  let idx : Nat := c.localTick % HISTORY
  let hist := ringSet c.stateHistory idx (c.localTick, c.state)
  let predicted : Nat × Nat :=
    (if c.myId = 0 then keyboard else c.lastRemote0,
     if c.myId = 1 then keyboard else c.lastRemote1)
  let inputs : Nat × Nat :=
    match ringGet c.authInputs idx with
    | some (t, a0, a1) => if t = c.localTick then (a0, a1) else predicted
    | none => predicted
  let used := ringSet c.usedInputs idx (c.localTick, inputs.1, inputs.2)
  let myBits : Nat := if c.myId = 0 then inputs.1 else inputs.2
  let out : OutCmd := ⟨c.localTick, myBits⟩
  ({ c with
      localTick := (c.localTick + 1) % U32M,
      accumulator := acc0 - DT,
      renderPrevState := prev,
      state := step c.state inputs.1 inputs.2,
      stateHistory := hist,
      usedInputs := used }, out)

-- The spec's input-stamping formula, restated from the spec text for the
-- refinement comparison of the outbound tick stamp: latency_ticks =
-- floor(artificial_delay_ms * TPS / 1000), server_tick_est = wall_tick -
-- LEAD_TICKS, stamp = min(local_tick + latency_ticks, server_tick_est +
-- D_MAX).
def specLatencyTicks (delayMs : Nat) : Nat := delayMs * TPS / 1000

def specServerTickEst (wallTick : Nat) : Nat := wallTick - LEAD_TICKS

def specStampTick (localTick delayMs wallTick : Nat) : Nat :=
  min (localTick + specLatencyTicks delayMs) (specServerTickEst wallTick + D_MAX)

-- A concrete running client used by closed-form evaluations below.
def sampleClient : ClientSt :=
  { myId := 0, localTick := 10, lastRemote0 := 0, lastRemote1 := 0,
    pendingRollback := none, state := SimState.new,
    renderPrevState := SimState.new, accumulator := 0,
    authInputs := [], usedInputs := [], stateHistory := [] }

-- Lookup of pending[pid][t] on the server.
def pendingLookup (s : ServerSt) (pid t : Nat) : Option Nat :=
  ringGet (pendingOf s pid) t

-- inputs[pid] of a broadcast TickInputs message.
def msgInputAt (m : TickInputsMsg) (pid : Nat) : Nat :=
  if pid = 0 then m.i0 else m.i1

-- Two server-observable events agree except possibly in the player_id
-- byte carried on the wire inside an Input frame.
def sameButWirePid : SEvent → SEvent → Prop
  | .recv a1 w1, .recv a2 w2 => a1 = a2 ∧ w1.tick = w2.tick ∧ w1.bits = w2.bits
  | .advanceEv, .advanceEv => True
  | _, _ => False

-- Helper: a little-endian u32 field followed by anything decodes back to
-- the encoded value reduced mod 2^32.
theorem readU32_u32le (v : Nat) (rest : List Nat) :
    readU32 (u32le v ++ rest) = some (v % U32M, rest) := by
  simp only [u32le, List.cons_append, List.nil_append, readU32, U32M,
    Option.some.injEq, Prod.mk.injEq]
  exact ⟨by omega, trivial⟩

-- Helper: decoders reached through a known tag never report InvalidData.
theorem decodeAssignStartPayload_not_invalid (rest : List Nat) (t : Nat) :
    decodeAssignStartPayload rest ≠ .error (.invalidData t) := by
  unfold decodeAssignStartPayload
  cases rest with
  | nil => simp
  | cons pid r2 =>
      cases h : readU32 r2 with
      | none => simp [h]
      | some p => simp [h]

theorem decodeTickInputsPayload_not_invalid (rest : List Nat) (t : Nat) :
    decodeTickInputsPayload rest ≠ .error (.invalidData t) := by
  unfold decodeTickInputsPayload
  cases h : readU32 rest with
  | none => simp [h]
  | some p =>
      obtain ⟨tick, r2⟩ := p
      cases r2 with
      | nil => simp [h]
      | cons b0 r3 =>
          cases r3 with
          | nil => simp [h]
          | cons b1 r4 => simp [h]

theorem decodeInputPayload_not_invalid (rest : List Nat) (t : Nat) :
    decodeInputPayload rest ≠ .error (.invalidData t) := by
  unfold decodeInputPayload
  cases rest with
  | nil => simp
  | cons pid r2 =>
      cases h : readU32 r2 with
      | none => simp [h]
      | some p =>
          obtain ⟨tick, r3⟩ := p
          cases r3 with
          | nil => simp [h]
          | cons b r4 => simp [h]

/-- C6, counterexample: the Input variant does not round-trip through the
codec.  Encoding Input{player_id=0, tick=5, bits=7} and decoding the bytes
with recv_msg consumes the whole frame but yields Ok(None): no message at
all is recovered, so decode after encode is not the identity on the whole
message set. -/
theorem c6_counterexample :
    recvMsg (encodeInput ⟨0, 5, 7⟩) = .ok (none, []) := by rfl

/-- C6 (amended): encode-then-decode is the identity for AssignStart and
TickInputs over the admissible field ranges, but an encoded Input frame is
consumed in full by recv_msg and yields Ok(None): the client side
deliberately discards the Input variant rather than reproducing it. -/
theorem c6_roundtrip_amended :
    (∀ a : AssignStart, a.player_id < 256 → a.start_after_ms < U32M →
        recvMsg (encodeAssignStart a) = .ok (some (.assignStart a), [])) ∧
    (∀ t : TickInputsMsg, t.tick < U32M → t.i0 < 256 → t.i1 < 256 →
        recvMsg (encodeTickInputs t) = .ok (some (.tickInputs t), [])) ∧
    (∀ i : InputMsg, recvMsg (encodeInput i) = .ok (none, [])) := by
  refine ⟨?_, ?_, ?_⟩
  · intro a h1 h2
    have hr : readU32 (u32le a.start_after_ms ++ []) =
        some (a.start_after_ms % U32M, []) := readU32_u32le _ _
    rw [List.append_nil] at hr
    simp [recvMsg, encodeAssignStart, decodeAssignStartPayload, hr,
      Nat.mod_eq_of_lt h2, TAG_ASSIGN_START]
  · intro t ht h0 h1
    have hr : readU32 (u32le t.tick ++ [t.i0, t.i1]) =
        some (t.tick % U32M, [t.i0, t.i1]) := readU32_u32le _ _
    simp [recvMsg, encodeTickInputs, decodeTickInputsPayload, hr,
      Nat.mod_eq_of_lt ht, TAG_ASSIGN_START, TAG_TICK_INPUTS]
  · intro i
    have hr : readU32 (u32le i.tick ++ [i.bits]) =
        some (i.tick % U32M, [i.bits]) := readU32_u32le _ _
    simp [recvMsg, encodeInput, decodeInputPayload, hr,
      TAG_ASSIGN_START, TAG_TICK_INPUTS, TAG_INPUT]

/-- C6 witness: the amended round-trip evaluated at the concrete message
AssignStart{player_id=1, start_after_ms=800}. -/
theorem c6_roundtrip_amended_witness :
    recvMsg (encodeAssignStart ⟨1, 800⟩) = .ok (some (.assignStart ⟨1, 800⟩), []) :=
  c6_roundtrip_amended.1 ⟨1, 800⟩ (by decide) (by decide)

/-- C10: a frame whose tag is TAG_INPUT arriving at a client consumes the
frame's payload bytes (player_id byte, tick, bits) and produces neither an
event nor an error: recv_msg returns Ok(None) and leaves the rest of the
stream intact; and whenever recv_msg reports the InvalidData (unknown tag)
error, the offending byte is the frame's tag and lies outside the known
tag set {TAG_ASSIGN_START, TAG_INPUT, TAG_TICK_INPUTS}. -/
theorem c10_input_frames :
    (∀ pid tick bits rest,
        recvMsg (TAG_INPUT :: pid :: (u32le tick ++ bits :: rest)) = .ok (none, rest)) ∧
    (∀ l t, recvMsg l = .error (.invalidData t) →
        l.head? = some t ∧ t ≠ TAG_ASSIGN_START ∧ t ≠ TAG_INPUT ∧ t ≠ TAG_TICK_INPUTS) := by
  constructor
  · intro pid tick bits rest
    have hr : readU32 (u32le tick ++ bits :: rest) =
        some (tick % U32M, bits :: rest) := readU32_u32le _ _
    simp [recvMsg, decodeInputPayload, hr, TAG_ASSIGN_START, TAG_TICK_INPUTS, TAG_INPUT]
  · intro l t h
    cases l with
    | nil => simp [recvMsg] at h
    | cons tag rest =>
        simp only [recvMsg] at h
        by_cases h1 : tag = TAG_ASSIGN_START
        · rw [if_pos h1] at h
          exact absurd h (decodeAssignStartPayload_not_invalid _ _)
        · rw [if_neg h1] at h
          by_cases h2 : tag = TAG_TICK_INPUTS
          · rw [if_pos h2] at h
            exact absurd h (decodeTickInputsPayload_not_invalid _ _)
          · rw [if_neg h2] at h
            by_cases h3 : tag = TAG_INPUT
            · rw [if_pos h3] at h
              exact absurd h (decodeInputPayload_not_invalid _ _)
            · rw [if_neg h3] at h
              simp only [Except.error.injEq, DecodeErr.invalidData.injEq] at h
              subst h
              exact ⟨rfl, h1, h3, h2⟩

/-- C10 witness: a concrete TAG_INPUT frame for tick 7 with bits 5 is
consumed and yields Ok(None). -/
theorem c10_input_frames_witness :
    recvMsg (TAG_INPUT :: 0 :: (u32le 7 ++ 5 :: [])) = .ok (none, []) :=
  c10_input_frames.1 0 7 5 []

-- Helper: a single server step is blind to the wire player_id byte.
theorem serverStepEv_wirePid (e1 e2 : SEvent) (h : sameButWirePid e1 e2)
    (st : ServerSt × List TickInputsMsg) :
    serverStepEv st e1 = serverStepEv st e2 := by
  cases e1 with
  | recv a1 w1 =>
      cases e2 with
      | recv a2 w2 =>
          obtain ⟨ha, ht, hb⟩ := h
          obtain ⟨s, tr⟩ := st
          simp [serverStepEv, readerRecord, ha, ht, hb]
      | advanceEv => exact absurd h (by simp [sameButWirePid])
  | advanceEv =>
      cases e2 with
      | recv a2 w2 => exact absurd h (by simp [sameButWirePid])
      | advanceEv => rfl

-- Helper: folding the server loop over pointwise wire-pid-equivalent event
-- lists gives the same result from any starting configuration.
theorem serverFold_wirePid (l1 l2 : List SEvent) (h : List.Forall₂ sameButWirePid l1 l2) :
    ∀ st : ServerSt × List TickInputsMsg,
      l1.foldl serverStepEv st = l2.foldl serverStepEv st := by
  induction h with
  | nil => intro st; rfl
  | cons hR _ ih =>
      intro st
      simp only [List.foldl_cons]
      rw [serverStepEv_wirePid _ _ hR st]
      exact ih _

/-- C1: identity safety.  The reader thread stamps every record with the id
assigned to the accepting connection, discarding the wire player_id byte,
and so two whole server executions whose event streams differ only in the
wire player_id field of client Input frames produce identical pending-input
stores, identical TickInputs broadcast traces, and identical server
simulation states. -/
theorem c1_identity_safety (evs1 evs2 : List SEvent)
    (h : List.Forall₂ sameButWirePid evs1 evs2) :
    serverRun evs1 = serverRun evs2 :=
  serverFold_wirePid evs1 evs2 h (initServer, [])

/-- C1 witness: a run in which the connection assigned id 0 claims
player_id 1 on the wire is indistinguishable from the honest run. -/
theorem c1_identity_safety_witness :
    serverRun [SEvent.recv 0 ⟨1, 5, 3⟩, SEvent.advanceEv] =
      serverRun [SEvent.recv 0 ⟨0, 5, 3⟩, SEvent.advanceEv] :=
  c1_identity_safety _ _
    (List.Forall₂.cons ⟨rfl, rfl, rfl⟩ (List.Forall₂.cons trivial List.Forall₂.nil))

-- Helper lemmas about the association-list map operations.
theorem ringGet_cons_self {A : Type} (r : List (Nat × A)) (k : Nat) (v : A) :
    ringGet ((k, v) :: r) k = some v := by
  unfold ringGet
  rw [List.find?_cons_of_pos _ (by simp)]
  rfl

theorem orInsert_absent (r : List (Nat × Nat)) (k v : Nat)
    (h : ringGet r k = none) : orInsert r k v = (k, v) :: r := by
  simp [orInsert, h]

theorem orInsert_present (r : List (Nat × Nat)) (k v : Nat)
    (h : ringGet r k ≠ none) : orInsert r k v = r := by
  have : (ringGet r k).isSome = true := Option.isSome_iff_ne_none.mpr h
  simp [orInsert, this]

theorem ringGet_removeKey_self (r : List (Nat × Nat)) (k : Nat) :
    ringGet (removeKey r k) k = none := by
  have hfind : List.find? (fun kv => kv.1 == k) (r.filter (fun kv => kv.1 != k)) = none := by
    rw [List.find?_eq_none]
    intro x hx
    have hne := (List.mem_filter.mp hx).2
    simp only [bne_iff_ne, ne_eq] at hne
    simp [hne]
  simp [ringGet, removeKey, hfind]

/-- C3: input-window invariant of the server ingest step.  An input that the
ingest step actually accepts into the pending store (the step changed the
server state) satisfies server_tick ≤ tick ≤ server_tick + D_MAX at the
moment of acceptance, and an input with tick < server_tick or tick >
server_tick + D_MAX is dropped, leaving the entire server state
unchanged. -/
theorem c3_ingest_window (s : ServerSt) (m : InputMsg) :
    ((m.tick < s.tick ∨ s.tick + D_MAX < m.tick) → ingest s m = s) ∧
    (ingest s m ≠ s → s.tick ≤ m.tick ∧ m.tick ≤ s.tick + D_MAX) := by
  have hsat : satAdd32 s.tick D_MAX ≤ s.tick + D_MAX := by
    unfold satAdd32
    exact min_le_left _ _
  have hdrop : (m.tick < s.tick ∨ s.tick + D_MAX < m.tick) → ingest s m = s := by
    intro hcase
    unfold ingest
    split_ifs with h0 h1 h2 h3
    · rfl
    · rfl
    · rfl
    all_goals
      exfalso
      rcases hcase with hlt | hgt
      · exact h1 hlt
      · exact h2 (lt_of_le_of_lt hsat hgt)
  refine ⟨hdrop, ?_⟩
  intro hne
  constructor
  · by_contra hlt
    exact hne (hdrop (Or.inl (Nat.lt_of_not_le hlt)))
  · by_contra hgt
    exact hne (hdrop (Or.inr (Nat.lt_of_not_le hgt)))

/-- C3 witness: at server tick 0, an input stamped tick 100 is beyond the
D_MAX window and is dropped without changing the server state. -/
theorem c3_ingest_window_witness :
    ingest initServer ⟨0, 100, 3⟩ = initServer :=
  (c3_ingest_window initServer ⟨0, 100, 3⟩).1 (Or.inr (by decide))

/-- C5: first-submission-wins.  When an in-window input from a valid player
lands in an empty (player, tick) slot, the submitted bits are stored there;
any ingest of a later message for the same (player, tick) pair while the
slot is occupied leaves the whole server state unchanged; and when the
server advances through that tick with the slot still holding the stored
bits, exactly those bits appear in the authoritative broadcast for the
player. -/
theorem c5_first_submission_wins (s : ServerSt) (m : InputMsg)
    (hpid : m.player_id < PLAYER_COUNT)
    (hlo : s.tick ≤ m.tick) (hhi : m.tick ≤ satAdd32 s.tick D_MAX)
    (hempty : pendingLookup s m.player_id m.tick = none) :
    pendingLookup (ingest s m) m.player_id m.tick = some m.bits ∧
    (∀ s2 m2, m2.player_id = m.player_id → m2.tick = m.tick →
        pendingLookup s2 m.player_id m.tick ≠ none → ingest s2 m2 = s2) ∧
    (∀ s2 : ServerSt, s2.tick = m.tick →
        pendingLookup s2 m.player_id m.tick = some m.bits →
        msgInputAt (advanceTick s2).2 m.player_id = m.bits) := by
  refine ⟨?_, ?_, ?_⟩
  · unfold ingest
    rw [if_neg (Nat.not_le.mpr hpid), if_neg (Nat.not_lt.mpr hlo),
      if_neg (Nat.not_lt.mpr hhi)]
    by_cases hp : m.player_id = 0
    · rw [if_pos hp]
      unfold pendingLookup pendingOf at hempty ⊢
      rw [if_pos hp] at hempty
      simp only [if_pos hp]
      rw [orInsert_absent _ _ _ hempty, ringGet_cons_self]
    · rw [if_neg hp]
      unfold pendingLookup pendingOf at hempty ⊢
      rw [if_neg hp] at hempty
      simp only [if_neg hp]
      rw [orInsert_absent _ _ _ hempty, ringGet_cons_self]
  · intro s2 m2 hid htk hocc
    unfold ingest
    split_ifs with h0 h1 h2 h3
    · rfl
    · rfl
    · rfl
    · have hp : m.player_id = 0 := hid ▸ h3
      unfold pendingLookup pendingOf at hocc
      rw [if_pos hp] at hocc
      rw [htk, orInsert_present _ _ _ hocc]
    · have hp : m.player_id ≠ 0 := fun h => h3 (hid.trans h)
      unfold pendingLookup pendingOf at hocc
      rw [if_neg hp] at hocc
      rw [htk, orInsert_present _ _ _ hocc]
  · intro s2 hst hstored
    by_cases hp : m.player_id = 0
    · unfold pendingLookup pendingOf at hstored
      rw [if_pos hp] at hstored
      rw [← hst] at hstored
      simp [advanceTick, msgInputAt, hp, hstored]
    · unfold pendingLookup pendingOf at hstored
      rw [if_neg hp] at hstored
      rw [← hst] at hstored
      simp [advanceTick, msgInputAt, hp, hstored]

/-- C5 witness: the bits 7 submitted first for (player 0, tick 3) at server
tick 0 are stored in the pending slot. -/
theorem c5_first_submission_wins_witness :
    pendingLookup (ingest initServer ⟨0, 3, 7⟩) 0 3 = some 7 :=
  (c5_first_submission_wins initServer ⟨0, 3, 7⟩ (by decide) (by decide)
    (by decide) (by decide)).1

/-- C7: last-known-inputs carryover.  When the server advances at tick T it
broadcasts a pair tagged T built per player from pending[player][T] when
that entry exists — in which case the entry is removed and the bits are
stored into last[player] — and from the unchanged last[player] bits
otherwise. -/
theorem c7_carryover (s : ServerSt) :
    (advanceTick s).2.tick = s.tick ∧
    (∀ b, pendingLookup s 0 s.tick = some b →
        (advanceTick s).2.i0 = b ∧ (advanceTick s).1.last0 = b) ∧
    (pendingLookup s 0 s.tick = none →
        (advanceTick s).2.i0 = s.last0 ∧ (advanceTick s).1.last0 = s.last0) ∧
    (∀ b, pendingLookup s 1 s.tick = some b →
        (advanceTick s).2.i1 = b ∧ (advanceTick s).1.last1 = b) ∧
    (pendingLookup s 1 s.tick = none →
        (advanceTick s).2.i1 = s.last1 ∧ (advanceTick s).1.last1 = s.last1) ∧
    pendingLookup (advanceTick s).1 0 s.tick = none ∧
    pendingLookup (advanceTick s).1 1 s.tick = none := by
  refine ⟨by simp [advanceTick], ?_, ?_, ?_, ?_, ?_, ?_⟩
  · intro b hb
    unfold pendingLookup pendingOf at hb
    norm_num at hb
    simp [advanceTick, hb]
  · intro hb
    unfold pendingLookup pendingOf at hb
    norm_num at hb
    simp [advanceTick, hb]
  · intro b hb
    unfold pendingLookup pendingOf at hb
    norm_num at hb
    simp [advanceTick, hb]
  · intro hb
    unfold pendingLookup pendingOf at hb
    norm_num at hb
    simp [advanceTick, hb]
  · unfold pendingLookup pendingOf
    simp [advanceTick, ringGet_removeKey_self]
  · unfold pendingLookup pendingOf
    simp [advanceTick, ringGet_removeKey_self]

/-- C7 witness: at the fresh server state (no pending entry for tick 0) the
broadcast for player 0 reuses the last-known bits and leaves them
unchanged. -/
theorem c7_carryover_witness :
    (advanceTick initServer).2.i0 = initServer.last0 ∧
      (advanceTick initServer).1.last0 = initServer.last0 :=
  (c7_carryover initServer).2.2.1 (by decide)

/-- C8: time dilation.  With ahead computed as the signed difference of
local_tick and the saturating expected server tick, the sim-rate multiplier
is exactly the literal 1.03 when ahead < LEAD_TICKS - 1, exactly the
literal 0.98 when ahead > LEAD_TICKS + 2, exactly 1 otherwise, and the
accumulator is advanced by frame_time * sim_rate. -/
theorem c8_time_dilation (localTick timeTick : Nat) (acc ft : Rat) :
    ((localTick : Int) - ((timeTick - LEAD_TICKS : Nat) : Int) < (LEAD_TICKS : Int) - 1 →
        simRate localTick timeTick = 103 / 100) ∧
    ((localTick : Int) - ((timeTick - LEAD_TICKS : Nat) : Int) > (LEAD_TICKS : Int) + 2 →
        simRate localTick timeTick = 98 / 100) ∧
    (¬((localTick : Int) - ((timeTick - LEAD_TICKS : Nat) : Int) < (LEAD_TICKS : Int) - 1) →
      ¬((localTick : Int) - ((timeTick - LEAD_TICKS : Nat) : Int) > (LEAD_TICKS : Int) + 2) →
        simRate localTick timeTick = 1) ∧
    advanceAcc acc ft localTick timeTick = acc + ft * simRate localTick timeTick := by
  refine ⟨?_, ?_, ?_, rfl⟩
  · intro h
    simp only [simRate]
    rw [if_pos h]
  · intro h
    have h1 : ¬((localTick : Int) - ((timeTick - LEAD_TICKS : Nat) : Int) <
        (LEAD_TICKS : Int) - 1) := by omega
    simp only [simRate]
    rw [if_neg h1, if_pos h]
  · intro h1 h2
    simp only [simRate]
    rw [if_neg h1, if_neg h2]

/-- C8 witness: a client at local tick 0 while the local-time tick is 10 is
behind the dead-band and runs at the 1.03 multiplier. -/
theorem c8_time_dilation_witness : simRate 0 10 = 103 / 100 :=
  (c8_time_dilation 0 10 0 0).1 (by decide)

/-- C2, counterexample: the predictor stamps its outbound input for
simulated tick 10 with tick 10 itself, while the claimed formula
min(local_tick + latency_ticks, server_tick_est + D_MAX) evaluates to 11
under an artificial delay of 20 ms (latency_ticks = 1) and wall tick 20
(server_tick_est = 16): the code never adds the latency or applies the
clamp. -/
theorem c2_counterexample :
    (clientSimTick 0 sampleClient).2.tick = 10 ∧
    specStampTick 10 20 20 = 11 ∧ (10 : Nat) ≠ 11 :=
  ⟨rfl, by decide, by decide⟩

/-- C2 (amended): every outbound input scheduled while simulating tick
local_tick is stamped with tick = local_tick itself; no latency-based
future-stamping or D_MAX clamp is applied. -/
theorem c2_stamp_amended (keyboard : Nat) (c : ClientSt) :
    (clientSimTick keyboard c).2.tick = c.localTick := rfl

/-- C4, counterexample: a pending rollback for tick 5 whose snapshot slot is
empty is not dropped: the rollback application block leaves the client state
unchanged, and in particular pending_rollback still holds tick 5 afterwards
instead of being cleared. -/
theorem c4_counterexample :
    applyRollback { sampleClient with pendingRollback := some 5 } =
      { sampleClient with pendingRollback := some 5 } ∧
    (applyRollback { sampleClient with pendingRollback := some 5 }).pendingRollback =
      some 5 :=
  ⟨rfl, rfl⟩

/-- C4 (amended): when a rollback for tick t_rb is pending and the snapshot
slot t_rb mod HISTORY holds a state tagged exactly t_rb, the state is
restored, local_tick is rewound to t_rb and the pending rollback is
cleared; when the slot is empty or tagged with a different tick
(wrap-around), the rollback block is a no-op for the whole client state, so
the rollback stays pending (it is not cleared) while the simulation keeps
going. -/
theorem c4_rollback_amended (c : ClientSt) (trb : Nat)
    (h : c.pendingRollback = some trb) :
    (∀ saved : SimState, ringGet c.stateHistory (trb % HISTORY) = some (trb, saved) →
        applyRollback c = { c with state := saved, renderPrevState := saved,
                                   localTick := trb, pendingRollback := none }) ∧
    (ringGet c.stateHistory (trb % HISTORY) = none → applyRollback c = c) ∧
    (∀ tSaved saved, ringGet c.stateHistory (trb % HISTORY) = some (tSaved, saved) →
        tSaved ≠ trb → applyRollback c = c) := by
  refine ⟨?_, ?_, ?_⟩
  · intro saved hs
    simp [applyRollback, h, hs]
  · intro hs
    simp [applyRollback, h, hs]
  · intro tS saved hs hne
    simp [applyRollback, h, hs, hne]

/-- C4 witness: with a snapshot for tick 5 present and correctly tagged, the
rollback restores it, rewinds local_tick to 5 and clears the pending
rollback. -/
theorem c4_rollback_amended_witness :
    applyRollback
        { sampleClient with
          pendingRollback := some 5
          stateHistory := [(5 % HISTORY, (5, SimState.new))] } =
      { sampleClient with
        stateHistory := [(5 % HISTORY, (5, SimState.new))]
        state := SimState.new
        renderPrevState := SimState.new
        localTick := 5
        pendingRollback := none } :=
  (c4_rollback_amended
    { sampleClient with
      pendingRollback := some 5
      stateHistory := [(5 % HISTORY, (5, SimState.new))] } 5 rfl).1 SimState.new rfl

/-- C9, counterexample: the tick-rate constant of main.rs — the one the
tick clocks of both the server loop and the client predictor in that
binary use — is 50, not 60. -/
theorem c9_counterexample : TPS = 50 ∧ ¬ (TPS = 60) := by decide

/-- C9 (amended): main.rs fixes TPS = 50 and its wall-clock tick function
therefore counts 50 ticks per second on both server and client, while the
modular sim.rs separately defines its own TPS = 60. -/
theorem c9_tps_amended : TPS = 50 ∧ Sim.TPS = 60 ∧ wallTickMs 1000 = TPS := by decide
